import Mathlib

/-!
# CodeBlock widget (`md/block/codeblock.go`)

A shallow embedding of the state that the closures of `NewCodeBlock` capture and
mutate, and of the callbacks wired to the toolkit signals: `toggleExpand`
(expand button `clicked`), the `notify::upper` handler of the text view's
vertical adjustment, the primary-button gesture on the block, and
`CodeBlock.Highlight`.

Toolkit objects are represented by the properties the callbacks read or write.
Go `int` values are `Int`; the callbacks only compare and assign them, so no
arithmetic can overflow. The adjustment's `float64` fields are represented by
the integers the code uses: `int(vadj.Upper())` and the scroll value.
-/

namespace CodeBlock

/-- The widget state captured by the closures of `NewCodeBlock`. -/
structure Widget where
  /-- The expand toggle button's flag, `expand.Active()`. -/
  expandActive : Bool
  /-- The overlay carries the CSS class `md-codeblock-expanded`. -/
  expandedClass : Bool
  /-- The overlay carries the CSS class `md-codeblock-voverflow`. -/
  voverflowClass : Bool
  /-- Icon name of the expand button, `none` until `SetIconName` is called. -/
  iconName : Option String
  /-- Property `sw.CanTarget()` of the scroll container. -/
  swCanTarget : Bool
  /-- Height passed to `sw.SetSizeRequest(-1, _)`; `-1` means unset. -/
  swHeightRequest : Int
  /-- Property `sw.MarginTop()` of the scroll container. -/
  swMarginTop : Int
  /-- Opacity of the language label: the code only writes `0` and `1`. -/
  languageOpacity : Int
  /-- The lazily created cover box: `none` while `cover == nil`, otherwise
  its visibility. -/
  cover : Option Bool
  /-- Captured variable `maxHeight`. -/
  maxHeight : Int
  /-- Captured variable `minHeight`. -/
  minHeight : Int
  /-- The vertical scroll position, `vadj.Value()`. -/
  vadjValue : Int
  /-- The value `int(vadj.Upper())`: the natural height of the content. -/
  vadjUpper : Int
  /-- The value of `actions.AllocatedHeight()`, decided by the toolkit's layout. -/
  actionsAllocatedHeight : Int
  deriving DecidableEq, Repr

/-- Closure `coverSetVisible`: does nothing while `cover == nil`. -/
def coverSetVisible (visible : Bool) (s : Widget) : Widget :=
  match s.cover with
  | some _ => { s with cover := some visible }
  | none => s

/-- The `if expand.Active()` branch of `toggleExpand`. -/
def expandedBranch (s : Widget) : Widget :=
  coverSetVisible false
    { s with
      expandedClass := true
      iconName := some "view-restore-symbolic"
      swCanTarget := true
      swHeightRequest := s.maxHeight
      swMarginTop := s.actionsAllocatedHeight
      languageOpacity := 1 }

/-- The `else` branch of `toggleExpand`. -/
def collapsedBranch (s : Widget) : Widget :=
  { coverSetVisible true
      { s with
        expandedClass := false
        iconName := some "view-fullscreen-symbolic"
        swCanTarget := false
        swHeightRequest := s.minHeight
        swMarginTop := 0
        languageOpacity := 0 } with
    vadjValue := 0 }

/-- Closure `toggleExpand`. -/
def toggleExpand (s : Widget) : Widget :=
  if s.expandActive then expandedBranch s else collapsedBranch s

/-- A press of the expand toggle button: the toolkit flips the button's
`active` flag and then runs the connected `clicked` handler `toggleExpand`. -/
def expandClicked (s : Widget) : Widget :=
  toggleExpand { s with expandActive := !s.expandActive }

/-- The `click.ConnectPressed` handler: `expand.Activate()` clicks the button,
but only when the toggle is not active. -/
def clickPressed (s : Widget) : Widget :=
  if !s.expandActive then expandClicked s else s

/-- The `vadj.NotifyProperty("upper", ...)` handler. `upperPref` and
`lowerPref` are the values of `codeUpperHeight.Value()` and
`codeLowerHeight.Value()` read by this run. -/
def notifyUpper (upperPref lowerPref : Int) (s : Widget) : Widget :=
  let upperHeight := upperPref
  let lowerHeight := lowerPref
  let upperHeight := if upperHeight < lowerHeight then lowerHeight else upperHeight
  let upper := s.vadjUpper
  let maxHeight := upper
  let minHeight := upper
  let maxHeight := if maxHeight > upperHeight then upperHeight else maxHeight
  let s :=
    if minHeight > lowerHeight then
      { s with
        maxHeight := maxHeight
        minHeight := lowerHeight
        voverflowClass := true
        cover := match s.cover with
          | none => some true
          | some v => some v }
    else
      { s with maxHeight := maxHeight, minHeight := minHeight }
  toggleExpand s

/-- The adjustment's `upper` changes to a value whose integer part is `h`, and
the `notify::upper` handler runs with the preference values it reads. -/
def upperChanged (h upperPref lowerPref : Int) (s : Widget) : Widget :=
  notifyUpper upperPref lowerPref { s with vadjUpper := h }

/-- The widget right after `NewCodeBlock` returns: toolkit defaults, no handler
has run yet. -/
def newCodeBlock : Widget :=
  { expandActive := false
    expandedClass := false
    voverflowClass := false
    iconName := none
    swCanTarget := true
    swHeightRequest := -1
    swMarginTop := 0
    languageOpacity := 1
    cover := none
    maxHeight := 0
    minHeight := 0
    vadjValue := 0
    vadjUpper := 0
    actionsAllocatedHeight := 0 }

/-- What can happen to the widget between two observations. -/
inductive Event where
  /-- The content's natural height changes; the handler reads the preferences. -/
  | upperChanged (h upperPref lowerPref : Int)
  /-- The expand toggle button is pressed. -/
  | expandClicked
  /-- Primary-button click on the block. -/
  | clickPressed
  /-- The user scrolls the text to position `v`. -/
  | scrolled (v : Int)
  /-- Layout allocates height `n` to the actions box. -/
  | actionsAllocated (n : Int)
  deriving DecidableEq, Repr

/-- One event applied to the widget. -/
def step (s : Widget) : Event → Widget
  | .upperChanged h u l => upperChanged h u l s
  | .expandClicked => expandClicked s
  | .clickPressed => clickPressed s
  | .scrolled v => { s with vadjValue := v }
  | .actionsAllocated n => { s with actionsAllocatedHeight := n }

/-- A sequence of events applied in order. -/
def run (s : Widget) (es : List Event) : Widget :=
  es.foldl step s

/-- The overflow cue: the `md-codeblock-voverflow` class on the overlay together
with a visible cover box. -/
def cueShown (s : Widget) : Bool :=
  s.voverflowClass && (s.cover == some true)

/-- An event is a natural-height change that exceeds the collapsed bound it
reads. -/
def Event.overflows : Event → Bool
  | .upperChanged h _ l => decide (l < h)
  | _ => false

/-- The event is a natural-height change, whatever the height. -/
def Event.isUpperChanged : Event → Bool
  | .upperChanged _ _ _ => true
  | _ => false

/-- The state matches the toggle flag: what `toggleExpand` establishes. -/
def MatchesFlag (s : Widget) : Prop :=
  (s.expandActive = true →
    s.swHeightRequest = s.maxHeight ∧ s.expandedClass = true ∧
      s.iconName = some "view-restore-symbolic" ∧ s.cover ≠ some true) ∧
  (s.expandActive = false →
    s.swHeightRequest = s.minHeight ∧ s.expandedClass = false ∧
      s.iconName = some "view-fullscreen-symbolic" ∧ s.vadjValue = 0)

instance (s : Widget) : Decidable (MatchesFlag s) := by
  unfold MatchesFlag; infer_instance

/-- Invariant of the overflow cue along a run: `b` tells whether some
natural-height change so far exceeded the collapsed bound. The overflow class
and the cover exist exactly then, and an existing cover is visible exactly when
the toggle is inactive. -/
def CueInv (s : Widget) (b : Bool) : Prop :=
  s.voverflowClass = b ∧ s.cover.isSome = b ∧ ∀ v, s.cover = some v → v = !s.expandActive

/-! ## `CodeBlock.Highlight` -/

/-- The calls `Highlight` makes on its collaborators, in order. `Iter` stands
for a `*gtk.TextIter`. -/
inductive Call (Iter : Type) where
  /-- Call `Buffer.ApplyTag(tag, start, end)` with the tag looked up by name. -/
  | applyTag (tagName : String) (start stop : Iter)
  /-- Call `hl.Highlight(ctx, start, end, language)`. -/
  | highlight (start stop : Iter) (language : String)
  deriving DecidableEq, Repr

/-- The part of the receiver `Highlight` reads: `b.text.Buffer.StartIter()` and
`b.text.Iter`. -/
structure TextBlock (Iter : Type) where
  startIter : Iter
  iter : Iter

/-- Method `(*CodeBlock).Highlight`, as the list of calls it makes. -/
def Highlight {Iter : Type} (b : TextBlock Iter) (language : String) : List (Call Iter) :=
  let start := b.startIter
  let stop := b.iter
  let calls := [Call.applyTag "_nohyphens" start stop]
  if language != "" then calls ++ [Call.highlight start stop language] else calls

/-- The entry is an `ApplyTag` call. -/
def Call.isApplyTag {Iter : Type} : Call Iter → Bool
  | .applyTag _ _ _ => true
  | .highlight _ _ _ => false

/-- The entry is a call of the syntax highlighter. -/
def Call.isHighlight {Iter : Type} : Call Iter → Bool
  | .applyTag _ _ _ => false
  | .highlight _ _ _ => true

/-! ## The heights computed by the `notify::upper` handler -/

theorem toggleExpand_minHeight (s : Widget) : (toggleExpand s).minHeight = s.minHeight := by
  unfold toggleExpand expandedBranch collapsedBranch coverSetVisible
  cases s.expandActive <;> cases s.cover <;> rfl

theorem toggleExpand_maxHeight (s : Widget) : (toggleExpand s).maxHeight = s.maxHeight := by
  unfold toggleExpand expandedBranch collapsedBranch coverSetVisible
  cases s.expandActive <;> cases s.cover <;> rfl

theorem toggleExpand_expandActive (s : Widget) :
    (toggleExpand s).expandActive = s.expandActive := by
  unfold toggleExpand expandedBranch collapsedBranch coverSetVisible
  cases s.expandActive <;> cases s.cover <;> rfl

theorem toggleExpand_voverflowClass (s : Widget) :
    (toggleExpand s).voverflowClass = s.voverflowClass := by
  unfold toggleExpand expandedBranch collapsedBranch coverSetVisible
  cases s.expandActive <;> cases s.cover <;> rfl

theorem toggleExpand_swHeightRequest (s : Widget) :
    (toggleExpand s).swHeightRequest = if s.expandActive then s.maxHeight else s.minHeight := by
  unfold toggleExpand expandedBranch collapsedBranch coverSetVisible
  cases s.expandActive <;> cases s.cover <;> rfl

theorem notifyUpper_minHeight (u l : Int) (s : Widget) :
    (notifyUpper u l s).minHeight = min s.vadjUpper l := by
  unfold notifyUpper
  simp only [toggleExpand_minHeight]
  split_ifs <;> simp only [] <;> omega

theorem notifyUpper_maxHeight (u l : Int) (s : Widget) :
    (notifyUpper u l s).maxHeight = min s.vadjUpper (max u l) := by
  unfold notifyUpper
  simp only [toggleExpand_maxHeight]
  split_ifs <;> simp only [] <;> omega

theorem notifyUpper_expandActive (u l : Int) (s : Widget) :
    (notifyUpper u l s).expandActive = s.expandActive := by
  unfold notifyUpper
  simp only [toggleExpand_expandActive]
  split_ifs <;> rfl

theorem notifyUpper_swHeightRequest (u l : Int) (s : Widget) :
    (notifyUpper u l s).swHeightRequest =
      if s.expandActive then (notifyUpper u l s).maxHeight else (notifyUpper u l s).minHeight := by
  unfold notifyUpper
  simp only [toggleExpand_swHeightRequest, toggleExpand_maxHeight, toggleExpand_minHeight]
  split_ifs <;> rfl

theorem toggleExpand_cover_isSome (s : Widget) :
    (toggleExpand s).cover.isSome = s.cover.isSome := by
  unfold toggleExpand expandedBranch collapsedBranch coverSetVisible
  cases s.expandActive <;> cases s.cover <;> rfl

theorem upperChanged_minHeight (h u l : Int) (s : Widget) :
    (upperChanged h u l s).minHeight = min h l :=
  notifyUpper_minHeight u l _

theorem upperChanged_maxHeight (h u l : Int) (s : Widget) :
    (upperChanged h u l s).maxHeight = min h (max u l) :=
  notifyUpper_maxHeight u l _

theorem upperChanged_expandActive (h u l : Int) (s : Widget) :
    (upperChanged h u l s).expandActive = s.expandActive :=
  notifyUpper_expandActive u l _

theorem upperChanged_swHeightRequest (h u l : Int) (s : Widget) :
    (upperChanged h u l s).swHeightRequest =
      if s.expandActive then min h (max u l) else min h l := by
  have e := notifyUpper_swHeightRequest u l { s with vadjUpper := h }
  rw [notifyUpper_maxHeight, notifyUpper_minHeight] at e
  exact e

/-- When the content fits the collapsed bound, the handler leaves the overflow
class and the existence of the cover as they were. -/
theorem upperChanged_fits_cue (h u l : Int) (s : Widget) (hfit : h ≤ l) :
    (upperChanged h u l s).voverflowClass = s.voverflowClass ∧
      (upperChanged h u l s).cover.isSome = s.cover.isSome := by
  unfold upperChanged notifyUpper
  simp only [toggleExpand_voverflowClass, toggleExpand_cover_isSome]
  have hn : ¬ (h > l) := not_lt.mpr hfit
  simp only [hn, if_false, and_self]

/-! ## Claims about the computed heights -/

/-- C1: after the natural-height-changed handler runs, for every natural height
and every pair of preference values, `minHeight` is at most the collapsed-height
preference read by the handler, and so is the height requested from the scroll
container when the expand toggle is inactive. -/
theorem collapsed_height_le_lower_pref (h u l : Int) (s : Widget) :
    (upperChanged h u l s).minHeight ≤ l ∧
      (s.expandActive = false → (upperChanged h u l s).expandActive = false ∧
        (upperChanged h u l s).swHeightRequest ≤ l) := by
  refine ⟨?_, fun hs => ⟨?_, ?_⟩⟩
  · rw [upperChanged_minHeight]; exact min_le_right _ _
  · rw [upperChanged_expandActive]; exact hs
  · rw [upperChanged_swHeightRequest, hs]
    exact min_le_right _ _

theorem collapsed_height_le_lower_pref_witness :
    newCodeBlock.expandActive = false ∧
      (upperChanged 300 400 200 newCodeBlock).minHeight ≤ 200 ∧
      (upperChanged 300 400 200 newCodeBlock).swHeightRequest ≤ 200 :=
  ⟨rfl, (collapsed_height_le_lower_pref 300 400 200 newCodeBlock).1,
    ((collapsed_height_le_lower_pref 300 400 200 newCodeBlock).2 rfl).2⟩

/-- C2, as stated, fails: with the expanded-height preference 100 below the
collapsed-height preference 200 and content of natural height 300, the handler
leaves `maxHeight = 200`, above the expanded-height preference. -/
theorem expanded_height_exceeds_upper_pref :
    (upperChanged 300 100 200 newCodeBlock).maxHeight = 200 ∧
      ¬ ((upperChanged 300 100 200 newCodeBlock).maxHeight ≤ 100) := by
  decide

/-- C2, amended: after the handler runs, `maxHeight` never exceeds the larger of
the two preferences, hence never exceeds the expanded-height preference when
that preference is not lower than the collapsed-height preference. -/
theorem expanded_height_le_effective_pref (h u l : Int) (s : Widget) :
    (upperChanged h u l s).maxHeight ≤ max u l ∧
      (l ≤ u → (upperChanged h u l s).maxHeight ≤ u) := by
  rw [upperChanged_maxHeight]
  refine ⟨min_le_right _ _, fun hlu => ?_⟩
  rw [max_eq_left hlu]
  exact min_le_right _ _

theorem expanded_height_le_effective_pref_witness :
    (200 : Int) ≤ 400 ∧ (upperChanged 900 400 200 newCodeBlock).maxHeight ≤ 400 :=
  ⟨by decide, (expanded_height_le_effective_pref 900 400 200 newCodeBlock).2 (by decide)⟩

/-- C3: after the handler runs, `minHeight ≤ maxHeight`, for every natural
height and every pair of preference values, also with the expanded-height
preference below the collapsed-height preference. -/
theorem collapsed_height_le_expanded_height (h u l : Int) (s : Widget) :
    (upperChanged h u l s).minHeight ≤ (upperChanged h u l s).maxHeight := by
  rw [upperChanged_minHeight, upperChanged_maxHeight]
  exact min_le_min le_rfl (le_max_right u l)

/-- C6: an expanded-height preference below the collapsed-height preference is
ignored: any two such values give the same `minHeight` and the same `maxHeight`,
which is `min h l`. -/
theorem lower_upper_pref_ignored (h l u1 u2 : Int) (s : Widget) (h1 : u1 < l) (h2 : u2 < l) :
    (upperChanged h u1 l s).minHeight = (upperChanged h u2 l s).minHeight ∧
      (upperChanged h u1 l s).maxHeight = (upperChanged h u2 l s).maxHeight ∧
      (upperChanged h u1 l s).maxHeight = min h l := by
  simp only [upperChanged_minHeight, upperChanged_maxHeight,
    max_eq_right (le_of_lt h1), max_eq_right (le_of_lt h2), and_self]

theorem lower_upper_pref_ignored_witness :
    (upperChanged 300 60 200 newCodeBlock).minHeight =
        (upperChanged 300 150 200 newCodeBlock).minHeight ∧
      (upperChanged 300 60 200 newCodeBlock).maxHeight =
        (upperChanged 300 150 200 newCodeBlock).maxHeight ∧
      (upperChanged 300 60 200 newCodeBlock).maxHeight = min 300 200 :=
  lower_upper_pref_ignored 300 200 60 150 newCodeBlock (by decide) (by decide)

/-- C10: the handler computes `minHeight = min h l` and
`maxHeight = min h (max u l)`; neither exceeds `h`; and when the content fits the
collapsed bound (`h ≤ l`) both equal `h`, the requested height is `h` whatever
the toggle flag, and the run neither adds the overflow class nor creates the
cover. -/
theorem handler_heights (h u l : Int) (s : Widget) :
    (upperChanged h u l s).minHeight = min h l ∧
      (upperChanged h u l s).maxHeight = min h (max u l) ∧
      (upperChanged h u l s).minHeight ≤ h ∧
      (upperChanged h u l s).maxHeight ≤ h ∧
      (h ≤ l →
        (upperChanged h u l s).minHeight = h ∧
        (upperChanged h u l s).maxHeight = h ∧
        (upperChanged h u l s).swHeightRequest = h ∧
        (upperChanged h u l s).voverflowClass = s.voverflowClass ∧
        (upperChanged h u l s).cover.isSome = s.cover.isSome) := by
  have hmin := upperChanged_minHeight h u l s
  have hmax := upperChanged_maxHeight h u l s
  refine ⟨hmin, hmax, ?_, ?_, fun hfit => ?_⟩
  · rw [hmin]; exact min_le_left _ _
  · rw [hmax]; exact min_le_left _ _
  · have hfit2 : h ≤ max u l := le_trans hfit (le_max_right u l)
    refine ⟨?_, ?_, ?_, upperChanged_fits_cue h u l s hfit⟩
    · rw [hmin]; exact min_eq_left hfit
    · rw [hmax]; exact min_eq_left hfit2
    · rw [upperChanged_swHeightRequest, min_eq_left hfit, min_eq_left hfit2, ite_self]

theorem handler_heights_witness :
    (120 : Int) ≤ 200 ∧
      (upperChanged 120 400 200 newCodeBlock).minHeight = 120 ∧
      (upperChanged 120 400 200 newCodeBlock).maxHeight = 120 ∧
      (upperChanged 120 400 200 newCodeBlock).swHeightRequest = 120 ∧
      (upperChanged 120 400 200 newCodeBlock).voverflowClass = newCodeBlock.voverflowClass ∧
      (upperChanged 120 400 200 newCodeBlock).cover.isSome = newCodeBlock.cover.isSome :=
  ⟨by decide, (handler_heights 120 400 200 newCodeBlock).2.2.2.2 (by decide)⟩

/-! ## Claims about the callbacks -/

theorem toggleExpand_matchesFlag (s : Widget) : MatchesFlag (toggleExpand s) := by
  unfold MatchesFlag toggleExpand expandedBranch collapsedBranch coverSetVisible
  cases hA : s.expandActive <;> cases hC : s.cover <;> simp [hA, hC]

/-- C7: a primary-button click acts only on a collapsed block. With the toggle
inactive the click handler gives exactly the state a press of the expand control
gives: the toggle is active and `toggleExpand` has run its expanded branch. With
the toggle active the handler leaves the whole state unchanged. -/
theorem click_acts_only_when_collapsed (s : Widget) :
    (s.expandActive = false →
      clickPressed s = expandClicked s ∧
        (clickPressed s).expandActive = true ∧
        clickPressed s = expandedBranch { s with expandActive := true }) ∧
    (s.expandActive = true → clickPressed s = s) := by
  constructor
  · intro hs
    have hc : clickPressed s = expandClicked s := by
      unfold clickPressed; rw [hs]; rfl
    have he : expandClicked s = expandedBranch { s with expandActive := true } := by
      unfold expandClicked toggleExpand; rw [hs]; rfl
    refine ⟨hc, ?_, hc.trans he⟩
    rw [hc, he]
    unfold expandedBranch coverSetVisible
    cases s.cover <;> rfl
  · intro hs
    unfold clickPressed; rw [hs]; rfl

theorem click_acts_only_when_collapsed_witness :
    (clickPressed (upperChanged 300 400 200 newCodeBlock) =
        expandClicked (upperChanged 300 400 200 newCodeBlock) ∧
      (clickPressed (upperChanged 300 400 200 newCodeBlock)).expandActive = true) ∧
    clickPressed (expandClicked (upperChanged 300 400 200 newCodeBlock)) =
      expandClicked (upperChanged 300 400 200 newCodeBlock) :=
  ⟨⟨((click_acts_only_when_collapsed (upperChanged 300 400 200 newCodeBlock)).1 rfl).1,
      ((click_acts_only_when_collapsed (upperChanged 300 400 200 newCodeBlock)).1 rfl).2.1⟩,
    (click_acts_only_when_collapsed
      (expandClicked (upperChanged 300 400 200 newCodeBlock))).2 rfl⟩

/-- C9: after every run of `toggleExpand`, whether triggered by the expand
control, by a click on the collapsed block or by the natural-height-changed
handler, the state matches the toggle flag: active gives requested height
`maxHeight`, the expanded class, the restore icon and no visible cover; inactive
gives requested height `minHeight`, no expanded class, the fullscreen icon and
scroll value 0. -/
theorem state_matches_flag_after_toggleExpand (s : Widget) (h u l : Int) :
    MatchesFlag (toggleExpand s) ∧
      MatchesFlag (expandClicked s) ∧
      (s.expandActive = false → MatchesFlag (clickPressed s)) ∧
      MatchesFlag (upperChanged h u l s) := by
  refine ⟨toggleExpand_matchesFlag s, toggleExpand_matchesFlag _, fun hs => ?_, ?_⟩
  · have hc : clickPressed s = expandClicked s := by
      unfold clickPressed; rw [hs]; rfl
    rw [hc]
    exact toggleExpand_matchesFlag _
  · unfold upperChanged notifyUpper
    exact toggleExpand_matchesFlag _

theorem state_matches_flag_after_toggleExpand_witness :
    newCodeBlock.expandActive = false ∧ MatchesFlag (clickPressed newCodeBlock) :=
  ⟨rfl, (state_matches_flag_after_toggleExpand newCodeBlock 0 0 0).2.2.1 rfl⟩

/-- C8: for every language string, `Highlight` applies the `_nohyphens` tag
exactly once, from the buffer's start iterator to the block's iterator, as its
first call; the syntax highlighter is called if and only if the language is
non-empty, then exactly once, on the same range and with that language; with the
empty language the tag application is the only call. -/
theorem highlight_calls {Iter : Type} (b : TextBlock Iter)
    (language : String) :
    (Highlight b language).head? = some (Call.applyTag "_nohyphens" b.startIter b.iter) ∧
      (Highlight b language).countP Call.isApplyTag = 1 ∧
      (Call.highlight b.startIter b.iter language ∈ Highlight b language ↔ language ≠ "") ∧
      ((∃ c ∈ Highlight b language, c.isHighlight = true) ↔ language ≠ "") ∧
      (Highlight b language).countP Call.isHighlight = (if language = "" then 0 else 1) ∧
      (∀ c ∈ Highlight b language, c.isHighlight = true →
        c = Call.highlight b.startIter b.iter language) ∧
      (language = "" →
        Highlight b language = [Call.applyTag "_nohyphens" b.startIter b.iter]) := by
  unfold Highlight
  by_cases hl : language = ""
  · subst hl
    simp [Call.isApplyTag, Call.isHighlight]
  · simp [hl, Call.isApplyTag, Call.isHighlight]

theorem highlight_calls_witness :
    Highlight (⟨0, 7⟩ : TextBlock Nat) "" = [Call.applyTag "_nohyphens" 0 7] :=
  (highlight_calls (⟨0, 7⟩ : TextBlock Nat) "").2.2.2.2.2.2 rfl

/-! ## The overflow cue along a run -/

theorem cueInv_toggleExpand (s : Widget) (b : Bool)
    (hv : s.voverflowClass = b) (hc : s.cover.isSome = b) : CueInv (toggleExpand s) b := by
  unfold CueInv toggleExpand expandedBranch collapsedBranch coverSetVisible
  cases hA : s.expandActive <;> cases hC : s.cover <;> simp_all

theorem cueInv_expandClicked (s : Widget) (b : Bool) (hi : CueInv s b) :
    CueInv (expandClicked s) b :=
  cueInv_toggleExpand _ b hi.1 hi.2.1

theorem cueInv_upperChanged (h u l : Int) (s : Widget) (b : Bool) (hi : CueInv s b) :
    CueInv (upperChanged h u l s) (b || decide (l < h)) := by
  obtain ⟨hv, hc, -⟩ := hi
  unfold upperChanged notifyUpper
  by_cases hlt : l < h
  · have hgt : h > l := hlt
    simp only [hgt, if_true, hlt, decide_True, Bool.or_true]
    apply cueInv_toggleExpand
    · rfl
    · cases s.cover <;> rfl
  · have hgt : ¬ (h > l) := hlt
    simp only [hgt, if_false, hlt, decide_False, Bool.or_false]
    exact cueInv_toggleExpand _ b hv hc

theorem cueInv_step (s : Widget) (b : Bool) (e : Event) (hi : CueInv s b) :
    CueInv (step s e) (b || e.overflows) := by
  cases e with
  | upperChanged h u l => exact cueInv_upperChanged h u l s b hi
  | expandClicked =>
    simp only [Event.overflows, Bool.or_false]
    exact cueInv_expandClicked s b hi
  | clickPressed =>
    simp only [Event.overflows, Bool.or_false, step, clickPressed]
    split_ifs
    · exact cueInv_expandClicked s b hi
    · exact hi
  | scrolled v =>
    simp only [Event.overflows, Bool.or_false]
    exact hi
  | actionsAllocated n =>
    simp only [Event.overflows, Bool.or_false]
    exact hi

theorem cueInv_run (es : List Event) (s : Widget) (b : Bool) (hi : CueInv s b) :
    CueInv (run s es) (b || es.any Event.overflows) := by
  induction es generalizing s b with
  | nil => simpa [run] using hi
  | cons e es ih =>
    have h2 := ih (step s e) (b || e.overflows) (cueInv_step s b e hi)
    simpa [run, List.any_cons, Bool.or_assoc] using h2

theorem cueInv_newCodeBlock : CueInv newCodeBlock false := by
  unfold CueInv newCodeBlock
  simp

theorem any_overflows_iff (es : List Event) :
    es.any Event.overflows = true ↔ ∃ h u l, Event.upperChanged h u l ∈ es ∧ l < h := by
  rw [List.any_eq_true]
  constructor
  · rintro ⟨e, he, ho⟩
    cases e with
    | upperChanged h u l => exact ⟨h, u, l, he, by simpa [Event.overflows] using ho⟩
    | expandClicked => simp [Event.overflows] at ho
    | clickPressed => simp [Event.overflows] at ho
    | scrolled v => simp [Event.overflows] at ho
    | actionsAllocated n => simp [Event.overflows] at ho
  · rintro ⟨h, u, l, he, hlt⟩
    exact ⟨_, he, by simpa [Event.overflows] using hlt⟩

/-- Along any run from the new widget the cue is shown exactly when the toggle is
inactive and some natural-height change so far exceeded the bound it read. -/
theorem cueShown_run_iff (es : List Event) :
    cueShown (run newCodeBlock es) = true ↔
      (run newCodeBlock es).expandActive = false ∧
        ∃ h u l, Event.upperChanged h u l ∈ es ∧ l < h := by
  have hi := cueInv_run es newCodeBlock false cueInv_newCodeBlock
  rw [Bool.false_or] at hi
  obtain ⟨hv, hc, hvis⟩ := hi
  rw [← any_overflows_iff]
  unfold cueShown
  rw [hv]
  cases hb : es.any Event.overflows
  · simp
  · rw [hb] at hc
    cases hC : (run newCodeBlock es).cover with
    | none => rw [hC] at hc; simp at hc
    | some v =>
      have hv2 := hvis v hC
      cases hA : (run newCodeBlock es).expandActive
      · rw [hA] at hv2; subst hv2; decide
      · rw [hA] at hv2; subst hv2; decide

/-- C4, as stated, fails in two ways. On an expanded block whose content (900)
exceeds the collapsed bound (200) the cover is hidden, so the cue is not shown.
And after the content grows to 300 and shrinks back to 100 on a collapsed block,
the overflow class is still on the overlay and the cover is still visible,
although 100 does not exceed the bound. -/
theorem overflow_cue_not_iff_exceeds :
    ((run newCodeBlock [.upperChanged 900 400 200, .expandClicked]).vadjUpper = 900 ∧
      (run newCodeBlock [.upperChanged 900 400 200, .expandClicked]).expandActive = true ∧
      cueShown (run newCodeBlock [.upperChanged 900 400 200, .expandClicked]) = false ∧
      ¬ (cueShown (run newCodeBlock [.upperChanged 900 400 200, .expandClicked]) = true ↔
        200 < (run newCodeBlock [.upperChanged 900 400 200, .expandClicked]).vadjUpper)) ∧
    ((run newCodeBlock [.upperChanged 300 400 200, .upperChanged 100 400 200]).vadjUpper = 100 ∧
      cueShown (run newCodeBlock [.upperChanged 300 400 200, .upperChanged 100 400 200]) = true ∧
      ¬ (cueShown (run newCodeBlock [.upperChanged 300 400 200, .upperChanged 100 400 200]) = true ↔
        200 < (run newCodeBlock [.upperChanged 300 400 200, .upperChanged 100 400 200]).vadjUpper)) := by
  decide

/-- C4, amended: in every state reached from the new widget by any sequence of
events, (1) while the expand toggle is active the cue is not shown; (2) while the
toggle is inactive the cue is shown whenever the latest natural-height change
exceeded the collapsed bound its handler run read; (3) the cue is not shown if no
natural-height change so far exceeded its bound. Nothing is said about a
collapsed block whose content has shrunk back within the bound. -/
theorem overflow_cue_by_design (es : List Event) :
    ((run newCodeBlock es).expandActive = true → cueShown (run newCodeBlock es) = false) ∧
    (∀ pre rest h u l, es = pre ++ Event.upperChanged h u l :: rest →
      (∀ e ∈ rest, e.isUpperChanged = false) → l < h →
      (run newCodeBlock es).expandActive = false → cueShown (run newCodeBlock es) = true) ∧
    ((∀ h u l, Event.upperChanged h u l ∈ es → h ≤ l) →
      cueShown (run newCodeBlock es) = false) := by
  have hiff := cueShown_run_iff es
  refine ⟨fun hact => ?_, fun pre rest h u l hes _ hlt hin => ?_, fun hall => ?_⟩
  · cases hc : cueShown (run newCodeBlock es)
    · rfl
    · have h1 := (hiff.mp hc).1
      rw [hact] at h1
      exact absurd h1 (by decide)
  · refine hiff.mpr ⟨hin, h, u, l, ?_, hlt⟩
    rw [hes]
    exact List.mem_append_right pre (List.mem_cons_self _ _)
  · cases hc : cueShown (run newCodeBlock es)
    · rfl
    · obtain ⟨-, h, u, l, hmem, hlt⟩ := hiff.mp hc
      exact absurd (hall h u l hmem) (not_le.mpr hlt)

theorem overflow_cue_by_design_witness :
    (run newCodeBlock [.upperChanged 900 400 200, .expandClicked]).expandActive = true ∧
      cueShown (run newCodeBlock [.upperChanged 900 400 200, .expandClicked]) = false ∧
      (run newCodeBlock [.scrolled 3, .upperChanged 300 400 200, .actionsAllocated 34]).expandActive
        = false ∧
      cueShown (run newCodeBlock [.scrolled 3, .upperChanged 300 400 200, .actionsAllocated 34])
        = true ∧
      cueShown (run newCodeBlock [.upperChanged 120 400 200, .expandClicked, .expandClicked])
        = false :=
  ⟨rfl,
    (overflow_cue_by_design [.upperChanged 900 400 200, .expandClicked]).1 rfl,
    rfl,
    (overflow_cue_by_design [.scrolled 3, .upperChanged 300 400 200, .actionsAllocated 34]).2.1
      [.scrolled 3] [.actionsAllocated 34] 300 400 200 rfl (by decide) (by decide) rfl,
    (overflow_cue_by_design [.upperChanged 120 400 200, .expandClicked, .expandClicked]).2.2
      (by
        intro h u l hmem
        simp only [List.mem_cons, List.mem_singleton, Event.upperChanged.injEq,
          reduceCtorEq, or_false, List.not_mem_nil] at hmem
        omega)⟩

/-! ## Pressing the expand toggle twice -/

theorem expandClicked_twice (s : Widget) :
    expandClicked (expandClicked s) = { toggleExpand s with vadjValue := 0 } := by
  rcases s with ⟨a, ec, vc, ic, ct, hr, mt, lo, c, mx, mn, vv, vu, ah⟩
  cases a <;> cases c <;> rfl

/-- C5, as stated, fails in three ways. An expanded block (content height 900,
expanded to 400) scrolled to position 50 is at scroll position 0 after two
presses. An expanded block whose actions box was allocated height 40 after the
expansion has top margin 0 before and 40 after two presses. The new widget, on
which `toggleExpand` has not run yet, has no icon, height request `-1`, a
targetable scroll container and label opacity 1 before, and the fullscreen icon,
height request 0, no targetability and opacity 0 after two presses. -/
theorem toggle_twice_not_identity :
    ((run newCodeBlock [.upperChanged 900 400 200, .expandClicked, .scrolled 50]).expandActive
        = true ∧
      (run newCodeBlock [.upperChanged 900 400 200, .expandClicked, .scrolled 50]).vadjValue
        = 50 ∧
      (expandClicked (expandClicked
        (run newCodeBlock [.upperChanged 900 400 200, .expandClicked, .scrolled 50]))).vadjValue
        = 0 ∧
      expandClicked (expandClicked
        (run newCodeBlock [.upperChanged 900 400 200, .expandClicked, .scrolled 50]))
        ≠ run newCodeBlock [.upperChanged 900 400 200, .expandClicked, .scrolled 50]) ∧
    ((run newCodeBlock
        [.upperChanged 900 400 200, .expandClicked, .actionsAllocated 40]).swMarginTop = 0 ∧
      (expandClicked (expandClicked (run newCodeBlock
        [.upperChanged 900 400 200, .expandClicked, .actionsAllocated 40]))).swMarginTop = 40) ∧
    (newCodeBlock.iconName = none ∧
      (expandClicked (expandClicked newCodeBlock)).iconName = some "view-fullscreen-symbolic" ∧
      newCodeBlock.swHeightRequest = -1 ∧
      (expandClicked (expandClicked newCodeBlock)).swHeightRequest = 0 ∧
      newCodeBlock.swCanTarget = true ∧
      (expandClicked (expandClicked newCodeBlock)).swCanTarget = false ∧
      newCodeBlock.languageOpacity = 1 ∧
      (expandClicked (expandClicked newCodeBlock)).languageOpacity = 0) := by
  decide

/-- C5, amended: for every widget state `s`, two presses of the expand toggle in
a row leave the widget exactly as one run of `toggleExpand` on `s` would, with
the vertical scroll value at 0. So every field but the scroll value is restored
exactly for the states that match their toggle flag (those a run of
`toggleExpand` leaves unchanged apart from the scroll value), in particular for
every state as `toggleExpand` leaves it, then scrolled to any position `v`; the
scroll value is 0 afterwards. -/
theorem toggle_twice_restores_up_to_scroll (s s0 : Widget) (v : Int) :
    expandClicked (expandClicked s) = { toggleExpand s with vadjValue := 0 } ∧
    (expandClicked (expandClicked s) = { s with vadjValue := 0 } ↔
      { toggleExpand s with vadjValue := s.vadjValue } = s) ∧
    expandClicked (expandClicked { toggleExpand s0 with vadjValue := v }) =
      { toggleExpand s0 with vadjValue := 0 } := by
  refine ⟨expandClicked_twice s, ?_, ?_⟩
  · rw [expandClicked_twice]
    rcases s with ⟨a, ec, vc, ic, ct, hr, mt, lo, c, mx, mn, vv, vu, ah⟩
    cases a <;> cases c <;>
      simp [toggleExpand, expandedBranch, collapsedBranch, coverSetVisible]
  · rw [expandClicked_twice]
    rcases s0 with ⟨a, ec, vc, ic, ct, hr, mt, lo, c, mx, mn, vv, vu, ah⟩
    cases a <;> cases c <;> rfl

end CodeBlock
